import Mathlib

/-! # Profanity: contact directory and incoming-event handlers

Shallow embedding of `contact_list.c` and of the handlers of
`src/server_events.c`, with the properties stated in the specification.

* The linked list `_contact_list` is a `List contact_t`; `NULL` is `[]`.
* A `char *` that may be `NULL` is an `Option String`; `strcmp(a, b) == 0`
  is equality of strings.
* Every `while (curr)` loop is a recursive function over the remaining chain
  `curr`, carrying the nodes already passed (`before`, whose last node is the
  C variable `prev`).
-/

namespace Profanity

/-! ## contact_list.c -/

/-- Modelled from the spec: the record `contact_t` of `contact_list.h`
(`Contact: { name: string, status: optional string }`); the code reads and
writes its members `name` and `show`. -/
structure contact_t where
  name : String
  show_ : Option String
  deriving DecidableEq, Repr

/-- Modelled from the spec: the snapshot record `contact_list_t` of
`contact_list.h` (`ordered sequence of Contact values + count`); `contacts` is
`NULL` (`none`) or the block of pointers filled so far, `size` the count. -/
structure contact_list_t where
  contacts : Option (List contact_t)
  size : Nat
  deriving DecidableEq, Repr

/-- `_new_contact`: a fresh record holding copies of `name` and of `show`
(`NULL` stays `NULL`). -/
def _new_contact (name : String) (show_ : Option String) : contact_t :=
  match show_ with
  | some s => { name := name, show_ := some s }
  | none => { name := name, show_ := none }

/-- `_make_contact_node`: a single node, `next = NULL`. -/
def _make_contact_node (name : String) (show_ : Option String) : List contact_t :=
  [_new_contact name show_]

/-- `contact_list_clear`: every contact is destroyed and `_contact_list` is
set to `NULL`; an empty list is left as it is. -/
def contact_list_clear (l : List contact_t) : List contact_t :=
  match l with
  | [] => []
  | _ :: _ => []

/-- The `while (curr)` loop of `contact_list_remove`. On a match the node is
unlinked (`prev->next = curr->next`, or `_contact_list = curr->next` when there
is no `prev`) and 1 is returned; at the end of the chain 0 is returned. -/
def contact_list_remove_loop (name : String) :
    List contact_t → List contact_t → Int × List contact_t
  | before, [] => (0, before)
  | before, contact :: next =>
    if contact.name = name then
      match before with
      | [] => (1, next)
      | _ :: _ => (1, before ++ next)
    else contact_list_remove_loop name (before ++ [contact]) next

/-- `contact_list_remove`: the returned `int` and the list afterwards. -/
def contact_list_remove (name : String) (l : List contact_t) : Int × List contact_t :=
  match l with
  | [] => (0, [])
  | _ :: _ => contact_list_remove_loop name [] l

/-- The status update of `contact_list_add` on the matching contact: only when
the stored `show` is not `NULL` is it freed, set to `NULL` and, when the new
`show` is not `NULL`, replaced by a copy of it. -/
def contact_list_add_update (curr_contact : contact_t) (show_ : Option String) : contact_t :=
  if curr_contact.show_ ≠ none then
    match show_ with
    | some s => { curr_contact with show_ := some s }
    | none => { curr_contact with show_ := none }
  else curr_contact

/-- The `while (curr)` loop of `contact_list_add` with what follows it: on a
match the contact is updated and 0 returned; at the end of the chain a new node
is made, linked behind `prev` when there is one, and 1 returned. -/
def contact_list_add_loop (name : String) (show_ : Option String) :
    List contact_t → List contact_t → Int × List contact_t
  | before, [] =>
    match before with
    | [] => (1, [])
    | _ :: _ => (1, before ++ _make_contact_node name show_)
  | before, curr_contact :: next =>
    if curr_contact.name = name then
      (0, before ++ contact_list_add_update curr_contact show_ :: next)
    else contact_list_add_loop name show_ (before ++ [curr_contact]) next

/-- `contact_list_add`: the returned `int` and the list afterwards. -/
def contact_list_add (name : String) (show_ : Option String) (l : List contact_t) :
    Int × List contact_t :=
  match l with
  | [] => (1, _make_contact_node name show_)
  | _ :: _ => contact_list_add_loop name show_ [] l

/-- Number of `contact_t *` slots in the block that `get_contact_list`
allocates with `malloc(sizeof(contact_t * ))`. -/
def contacts_block_slots : Nat := 1

/-- The `while (curr)` loop of `get_contact_list`: stores a copy of the current
contact at `list->contacts[count]` and increments `count`. A store at an index
outside the allocated block has no defined result (`none`). -/
def get_contact_list_loop (slots : Nat) :
    List contact_t → Nat → List contact_t → Option (List contact_t × Nat)
  | [], count, block => some (block, count)
  | curr_contact :: next, count, block =>
    if count < slots then
      get_contact_list_loop slots next (count + 1)
        (block ++ [_new_contact curr_contact.name curr_contact.show_])
    else none

/-- `get_contact_list`: the snapshot returned for the directory `l`, or `none`
when building it stores outside the allocated block. -/
def get_contact_list (l : List contact_t) : Option contact_list_t :=
  match l with
  | [] => some { contacts := none, size := 0 }
  | _ :: _ =>
    match get_contact_list_loop contacts_block_slots l 0 [] with
    | some (block, count) => some { contacts := some block, size := count }
    | none => none

/-- Names of the directory in iteration order. -/
def names (l : List contact_t) : List String := l.map (fun c => c.name)

/-- One call on the contact directory: `contact_list_add`,
`contact_list_remove` or `contact_list_clear`, with its arguments. -/
inductive dir_op where
  | add (name : String) (status : Option String)
  | remove (name : String)
  | clear
  deriving DecidableEq, Repr

/-- The directory after one call. -/
def apply_op : dir_op → List contact_t → List contact_t
  | .add name status, l => (contact_list_add name status l).2
  | .remove name, l => (contact_list_remove name l).2
  | .clear, l => contact_list_clear l

/-- The directory after a sequence of calls, made in order. -/
def run_ops : List dir_op → List contact_t → List contact_t
  | [], l => l
  | op :: rest, l => run_ops rest (apply_op op l)

/-! ## src/server_events.c

The handlers call collaborators whose code is outside `src/`: the UI, the chat
logger, the roster store, the room store (`muc_*`), the crypto layer (`otr_*`)
and the preferences. A handler is a function on a `World`: the state of the
stores, the preferences, the set of pending invites, and the sequence of calls
made so far, in order. What the stores answer and how they change is a
parameter (`Collab`). Calls to the UI and to the logger are one-way: they are
recorded and change no store. `jid_destroy` only releases memory and is left
out.
-/

/-- Modelled from the spec: `Jid` of `jid.h`; the handlers read `barejid` and
`fulljid`. -/
structure Jid where
  barejid : String
  fulljid : String
  deriving DecidableEq, Repr

/-- Modelled from the spec: `GTimeVal` of glib, the explicit timestamp of a
delayed message. -/
structure GTimeVal where
  tv_sec : Int
  tv_usec : Int
  deriving DecidableEq, Repr

/-- Modelled from the spec: `GDateTime` of glib, the last-activity value of a
presence observation. -/
structure GDateTime where
  unix_usec : Int
  deriving DecidableEq, Repr

/-- Modelled from the spec: `resource_presence_t`, the presence kind of a
resource, a C enumeration. -/
abbrev resource_presence_t := Nat

/-- Modelled from the spec: `jabber_invite_t`, the kind of a room invite, a C
enumeration. -/
abbrev jabber_invite_t := Nat

/-- Modelled from the spec: `Resource` of `resource.h`
(`resourceId, presenceKind, statusText`); `handle_contact_online` reads
`name`, `presence` and `status`. -/
structure Resource where
  name : String
  presence : resource_presence_t
  status : Option String
  deriving DecidableEq, Repr

/-- Modelled from the spec: the contact record `PContact` returned by the
roster store (`getContact(id) -> ContactRecord`); the handlers read its
subscription, which may be `NULL`. -/
structure PContact where
  barejid : String
  subscription : Option String
  deriving DecidableEq, Repr

/-- `p_contact_subscription`: the subscription of a contact record. -/
def p_contact_subscription (contact : PContact) : Option String := contact.subscription

/-- Direction argument of `chat_log_chat`. -/
inductive chat_log_direction_t where
  | PROF_IN_LOG
  | PROF_OUT_LOG
  deriving DecidableEq, Repr

/-- Preference keys read by the handlers. -/
inductive preference_t where
  | PREF_CHLOG
  | PREF_GRLOG
  | PREF_STATUSES
  | PREF_NOTIFY_SUB
  | PREF_OTR_LOG
  deriving DecidableEq, Repr

/-- Modelled from the spec: the configuration provider (`read-only
boolean/string preferences`). -/
structure Prefs where
  prefs_get_boolean : preference_t → Bool
  prefs_get_string : preference_t → String

/-- `strcmp`: 0 exactly when the two strings are equal. -/
def strcmp (a b : String) : Int :=
  if a = b then 0 else if a < b then -1 else 1

/-- `g_strcmp0` of glib: `strcmp` that accepts `NULL`, which sorts before any
string. -/
def g_strcmp0 (a b : Option String) : Int :=
  match a, b with
  | none, none => 0
  | none, some _ => -1
  | some _, none => 1
  | some x, some y => strcmp x y

/-- A call made by a handler to a collaborator, with its arguments. -/
inductive Call where
  | ui_handle_error_message (from_ : String) (err_msg : Option String)
  | muc_leave_room (room : String)
  | cons_show_error (msg : String)
  | roster_clear
  | muc_clear_invites
  | chat_sessions_clear
  | ui_disconnected
  | ui_current_page_off
  | cons_show_room_invite (invitor : String) (room : String) (reason : Option String)
  | muc_add_invite (room : String)
  | otr_decrypt_message (from_ : String) (message : String)
  | otr_free_message (newmessage : String)
  | ui_incoming_msg (from_ : String) (message : String) (tv_stamp : Option GTimeVal)
      (priv : Bool)
  | chat_log_chat (login : String) (other : String) (msg : String)
      (direction : chat_log_direction_t) (tv_stamp : Option GTimeVal)
  | roster_contact_offline (contact : String) (resource : Option String)
      (status : Option String)
  | roster_update_presence (contact : String) (resource : Resource)
      (last_activity : Option GDateTime)
  | ui_contact_offline (from_ : String) (show_ : String) (status : Option String)
  | ui_contact_online (contact : String) (resource_name : String) (show_ : String)
      (status : Option String) (last_activity : Option GDateTime)
  | ui_room_nick_change (room : String) (nick : String)
  | muc_add_to_roster (room : String) (nick : String) (show_ : Option String)
      (status : Option String) (caps_str : Option String)
  | ui_room_member_presence (room : String) (nick : String) (show_ : Option String)
      (status : Option String)
  | ui_room_member_online (room : String) (nick : String) (show_ : Option String)
      (status : Option String)
  | ui_room_member_nick_change (room : String) (old_nick : String) (nick : String)
  deriving DecidableEq, Repr

/-- The collaborators outside `src/`, over a state `σ` of their stores: what
each query answers, what each mutating call returns and the state it leaves.
`otr_decrypt_message` returns the new message (`NULL` is `none`) together with
the value of `was_decrypted` after the call. -/
structure Collab (σ : Type) where
  jid_create : String → Jid
  jid_create_from_bare_and_resource : String → String → Jid
  jabber_get_fulljid : σ → String
  string_from_resource_presence : resource_presence_t → String
  muc_room_is_active : Jid → σ → Bool
  muc_get_roster_received : String → σ → Bool
  muc_leave_room : String → σ → σ
  muc_add_to_roster : String → String → Option String → Option String → Option String →
    σ → Bool × σ
  roster_clear : σ → σ
  chat_sessions_clear : σ → σ
  roster_update_presence : String → Resource → Option GDateTime → σ → Bool × σ
  roster_contact_offline : String → Option String → Option String → σ → Bool × σ
  roster_get_contact : String → σ → PContact
  otr_decrypt_message : String → String → σ → (Option String × Bool) × σ

/-- State of the stores after a call; calls to the UI and to the logger, and
the release of a decrypted message, leave the stores as they are. -/
def Collab.effect {σ : Type} (c : Collab σ) : Call → σ → σ
  | .muc_leave_room room, s => c.muc_leave_room room s
  | .roster_clear, s => c.roster_clear s
  | .chat_sessions_clear, s => c.chat_sessions_clear s
  | .otr_decrypt_message from_ message, s => (c.otr_decrypt_message from_ message s).2
  | .roster_contact_offline contact resource status, s =>
    (c.roster_contact_offline contact resource status s).2
  | .roster_update_presence contact resource last_activity, s =>
    (c.roster_update_presence contact resource last_activity s).2
  | .muc_add_to_roster room nick show_ status caps_str, s =>
    (c.muc_add_to_roster room nick show_ status caps_str s).2
  | _, s => s

/-- Modelled from the spec: `muc_invites_include` of the room store, `already
has a recorded pending invite`. -/
def muc_invites_include (room : String) (invites : List String) : Bool :=
  decide (room ∈ invites)

/-- Modelled from the spec: `muc_add_invite` of the room store, `records the
invite` in a set where `a roomId appears at most once`. -/
def muc_add_invite (room : String) (invites : List String) : List String :=
  if room ∈ invites then invites else invites ++ [room]

/-- Modelled from the spec: the pending invites after a call; `muc_add_invite`
records, `muc_clear_invites` `drops all recorded invites`, no other call
touches the set. -/
def invites_after : Call → List String → List String
  | .muc_add_invite room, invites => muc_add_invite room invites
  | .muc_clear_invites, _ => []
  | _, invites => invites

/-- The stores of the collaborators (`ext`), the preferences, the pending
invites of the room store, and the calls made so far, oldest first. -/
structure World (σ : Type) where
  ext : σ
  prefs : Prefs
  invites : List String
  trace : List Call

/-- Make one call: record it and apply its effect on the stores. -/
def World.call {σ : Type} (w : World σ) (c : Collab σ) (k : Call) : World σ :=
  { ext := c.effect k w.ext
    prefs := w.prefs
    invites := invites_after k w.invites
    trace := w.trace ++ [k] }

/-- The calls made between the world `w` and the later world `w2`. -/
def emitted {σ : Type} (w w2 : World σ) : List Call := w2.trace.drop w.trace.length

/-- `handle_error_message`. -/
def handle_error_message {σ : Type} (c : Collab σ) (from_ : String)
    (err_msg : Option String) (w : World σ) : World σ :=
  let w1 := w.call c (.ui_handle_error_message from_ err_msg)
  if g_strcmp0 err_msg (some "conflict") = 0 then
    let room_jid := c.jid_create from_
    if !c.muc_get_roster_received room_jid.barejid w1.ext then
      w1.call c (.muc_leave_room room_jid.barejid)
    else w1
  else w1

/-- `handle_lost_connection`. -/
def handle_lost_connection {σ : Type} (c : Collab σ) (w : World σ) : World σ :=
  let w1 := w.call c (.cons_show_error "Lost connection.")
  let w2 := w1.call c .roster_clear
  let w3 := w2.call c .muc_clear_invites
  let w4 := w3.call c .chat_sessions_clear
  let w5 := w4.call c .ui_disconnected
  w5.call c .ui_current_page_off

/-- `handle_room_invite`. -/
def handle_room_invite {σ : Type} (c : Collab σ) (_invite_type : jabber_invite_t)
    (invitor : String) (room : String) (reason : Option String) (w : World σ) : World σ :=
  let room_jid := c.jid_create room
  if !c.muc_room_is_active room_jid w.ext && !muc_invites_include room w.invites then
    let w1 := w.call c (.cons_show_room_invite invitor room reason)
    let w2 := w1.call c (.muc_add_invite room)
    w2.call c .ui_current_page_off
  else w

/-- The part of `handle_incoming_message` (crypto build) after `newmessage`
and `was_decrypted` are set: show, log according to the preferences, release. -/
def handle_incoming_message_shown {σ : Type} (c : Collab σ) (from_ : String)
    (newmessage : String) (was_decrypted : Bool) (priv : Bool) (w : World σ) : World σ :=
  let w1 := w.call c (.ui_incoming_msg from_ newmessage none priv)
  let w2 := w1.call c .ui_current_page_off
  let w3 :=
    if w2.prefs.prefs_get_boolean .PREF_CHLOG && !priv then
      let from_jid := c.jid_create from_
      let jid := c.jabber_get_fulljid w2.ext
      let jidp := c.jid_create jid
      if !was_decrypted || strcmp (w2.prefs.prefs_get_string .PREF_OTR_LOG) "on" = 0 then
        w2.call c (.chat_log_chat jidp.barejid from_jid.barejid newmessage .PROF_IN_LOG none)
      else if strcmp (w2.prefs.prefs_get_string .PREF_OTR_LOG) "redact" = 0 then
        w2.call c (.chat_log_chat jidp.barejid from_jid.barejid "[redacted]" .PROF_IN_LOG none)
      else w2
    else w2
  if !priv then w3.call c (.otr_free_message newmessage) else w3

/-- `handle_incoming_message`; `HAVE_LIBOTR` selects the branch of the
`#ifdef`. -/
def handle_incoming_message {σ : Type} (HAVE_LIBOTR : Bool) (c : Collab σ) (from_ : String)
    (message : String) (priv : Bool) (w : World σ) : World σ :=
  if HAVE_LIBOTR then
    if !priv then
      let r := (c.otr_decrypt_message from_ message w.ext).1
      let w1 := w.call c (.otr_decrypt_message from_ message)
      match r.1 with
      | none => w1
      | some newmessage => handle_incoming_message_shown c from_ newmessage r.2 priv w1
    else
      handle_incoming_message_shown c from_ message false priv w
  else
    let w1 := w.call c (.ui_incoming_msg from_ message none priv)
    let w2 := w1.call c .ui_current_page_off
    if w2.prefs.prefs_get_boolean .PREF_CHLOG && !priv then
      let from_jid := c.jid_create from_
      let jid := c.jabber_get_fulljid w2.ext
      let jidp := c.jid_create jid
      w2.call c (.chat_log_chat jidp.barejid from_jid.barejid message .PROF_IN_LOG none)
    else w2

/-- `handle_delayed_message`. -/
def handle_delayed_message {σ : Type} (c : Collab σ) (from_ : String) (message : String)
    (tv_stamp : GTimeVal) (priv : Bool) (w : World σ) : World σ :=
  let w1 := w.call c (.ui_incoming_msg from_ message (some tv_stamp) priv)
  let w2 := w1.call c .ui_current_page_off
  if w2.prefs.prefs_get_boolean .PREF_CHLOG && !priv then
    let from_jid := c.jid_create from_
    let jid := c.jabber_get_fulljid w2.ext
    let jidp := c.jid_create jid
    w2.call c (.chat_log_chat jidp.barejid from_jid.barejid message .PROF_IN_LOG
      (some tv_stamp))
  else w2

/-- `handle_contact_offline`. -/
def handle_contact_offline {σ : Type} (c : Collab σ) (contact : String)
    (resource : Option String) (status : Option String) (w : World σ) : World σ :=
  let updated := (c.roster_contact_offline contact resource status w.ext).1
  let w1 := w.call c (.roster_contact_offline contact resource status)
  match resource with
  | none => w1
  | some res =>
    if updated && w1.prefs.prefs_get_boolean .PREF_STATUSES then
      let jid := c.jid_create_from_bare_and_resource contact res
      let result := c.roster_get_contact contact w1.ext
      match p_contact_subscription result with
      | none => w1
      | some subscription =>
        if strcmp subscription "none" ≠ 0 then
          let w2 := w1.call c (.ui_contact_offline jid.fulljid "offline" status)
          w2.call c .ui_current_page_off
        else w1
    else w1

/-- `handle_contact_online`. -/
def handle_contact_online {σ : Type} (c : Collab σ) (contact : String)
    (resource : Resource) (last_activity : Option GDateTime) (w : World σ) : World σ :=
  let updated := (c.roster_update_presence contact resource last_activity w.ext).1
  let w1 := w.call c (.roster_update_presence contact resource last_activity)
  if updated && w1.prefs.prefs_get_boolean .PREF_STATUSES then
    let result := c.roster_get_contact contact w1.ext
    match p_contact_subscription result with
    | none => w1
    | some subscription =>
      if strcmp subscription "none" ≠ 0 then
        let show_ := c.string_from_resource_presence resource.presence
        let w2 := w1.call c
          (.ui_contact_online contact resource.name show_ resource.status last_activity)
        w2.call c .ui_current_page_off
      else w1
  else w1

/-- `handle_room_nick_change`. -/
def handle_room_nick_change {σ : Type} (c : Collab σ) (room : String) (nick : String)
    (w : World σ) : World σ :=
  let w1 := w.call c (.ui_room_nick_change room nick)
  w1.call c .ui_current_page_off

/-- `handle_room_member_presence`. -/
def handle_room_member_presence {σ : Type} (c : Collab σ) (room : String) (nick : String)
    (show_ : Option String) (status : Option String) (caps_str : Option String)
    (w : World σ) : World σ :=
  let updated := (c.muc_add_to_roster room nick show_ status caps_str w.ext).1
  let w1 := w.call c (.muc_add_to_roster room nick show_ status caps_str)
  if updated then
    let w2 := w1.call c (.ui_room_member_presence room nick show_ status)
    w2.call c .ui_current_page_off
  else w1

/-- `handle_room_member_online`. -/
def handle_room_member_online {σ : Type} (c : Collab σ) (room : String) (nick : String)
    (show_ : Option String) (status : Option String) (caps_str : Option String)
    (w : World σ) : World σ :=
  let w1 := w.call c (.muc_add_to_roster room nick show_ status caps_str)
  let w2 := w1.call c (.ui_room_member_online room nick show_ status)
  w2.call c .ui_current_page_off

/-- `handle_room_member_nick_change`. -/
def handle_room_member_nick_change {σ : Type} (c : Collab σ) (room : String)
    (old_nick : String) (nick : String) (w : World σ) : World σ :=
  let w1 := w.call c (.ui_room_member_nick_change room old_nick nick)
  w1.call c .ui_current_page_off

/-- Whether a call is a call to the logger `chat_log_chat`. -/
def is_chat_log_chat : Call → Bool
  | .chat_log_chat _ _ _ _ _ => true
  | _ => false

/-- Texts and timestamps passed to the logger (`chat_log_chat`), in order. -/
def logged : List Call → List (String × Option GTimeVal)
  | [] => []
  | .chat_log_chat _ _ msg _ tv_stamp :: rest => (msg, tv_stamp) :: logged rest
  | _ :: rest => logged rest

/-- Messages and timestamps shown by the UI (`ui_incoming_msg`), in order. -/
def shown : List Call → List (String × Option GTimeVal)
  | [] => []
  | .ui_incoming_msg _ message tv_stamp _ :: rest => (message, tv_stamp) :: shown rest
  | _ :: rest => shown rest

/-- An arriving room invite: the arguments of `handle_room_invite` together
with the state of the stores at the moment it arrives (rooms may have been
joined or left since the previous event). -/
structure invite_event (σ : Type) where
  ext : σ
  invite_type : jabber_invite_t
  invitor : String
  room : String
  reason : Option String

/-- Handle one arriving invite: `handle_room_invite` in the world whose stores
are those of the event; pending invites and recorded calls carry over. -/
def deliver_invite {σ : Type} (c : Collab σ) (e : invite_event σ) (w : World σ) : World σ :=
  handle_room_invite c e.invite_type e.invitor e.room e.reason
    { ext := e.ext, prefs := w.prefs, invites := w.invites, trace := w.trace }

/-- Handle a sequence of arriving invites, in order. -/
def deliver_invites {σ : Type} (c : Collab σ) : List (invite_event σ) → World σ → World σ
  | [], w => w
  | e :: rest, w => deliver_invites c rest (deliver_invite c e w)

/-- Whether a call is the invite prompt `cons_show_room_invite` for room `r`. -/
def is_prompt_for (r : String) : Call → Bool
  | .cons_show_room_invite _ room _ => decide (room = r)
  | _ => false

/-- A collaborator instance over a trivial store, for evaluating the handlers
on concrete inputs: the room "lobby@conf" is active and its roster received,
every roster update reports a change, the contact "mallory" has subscription
"none", and decryption turns "?OTR:xyz" into "hello". -/
def sample_collab : Collab Unit where
  jid_create := fun s => { barejid := s, fulljid := s }
  jid_create_from_bare_and_resource := fun b r => { barejid := b, fulljid := b ++ "/" ++ r }
  jabber_get_fulljid := fun _ => "me@server"
  string_from_resource_presence := fun _ => "online"
  muc_room_is_active := fun j _ => decide (j.barejid = "lobby@conf")
  muc_get_roster_received := fun r _ => decide (r = "lobby@conf")
  muc_leave_room := fun _ s => s
  muc_add_to_roster := fun _ _ _ _ _ s => (true, s)
  roster_clear := fun s => s
  chat_sessions_clear := fun s => s
  roster_update_presence := fun _ _ _ s => (true, s)
  roster_contact_offline := fun _ _ _ s => (true, s)
  roster_get_contact := fun contact _ =>
    { barejid := contact, subscription := if contact = "mallory" then some "none" else some "both" }
  otr_decrypt_message := fun _ message s =>
    if message = "?OTR:xyz" then ((some "hello", true), s)
    else if message = "?OTR:init" then ((none, false), s)
    else ((some message, false), s)

/-- Preferences for evaluating the handlers: everything enabled, the given
redaction policy. -/
def sample_prefs (otr_log : String) : Prefs where
  prefs_get_boolean := fun _ => true
  prefs_get_string := fun _ => otr_log

/-- A world with no pending invites and no calls made yet. -/
def sample_world (otr_log : String) : World Unit :=
  { ext := (), prefs := sample_prefs otr_log, invites := [], trace := [] }

/-! ## Properties of the contact directory -/

theorem contact_list_remove_loop_absent (name : String) (curr before : List contact_t)
    (h : name ∉ names curr) :
    contact_list_remove_loop name before curr = (0, before ++ curr) := by
  induction curr generalizing before with
  | nil => simp [contact_list_remove_loop]
  | cons c next ih =>
    have hc : c.name ≠ name := fun e => h (by simp [names, e])
    have hn : name ∉ names next := fun e => h (by
      simp only [names, List.map_cons, List.mem_cons]; exact Or.inr e)
    simp [contact_list_remove_loop, hc, ih _ hn]

theorem contact_list_remove_loop_present (name : String) (curr before : List contact_t)
    (hu : (names curr).Nodup) (h : name ∈ names curr) :
    contact_list_remove_loop name before curr
      = (1, before ++ curr.filter (fun c => decide (c.name ≠ name))) := by
  induction curr generalizing before with
  | nil => simp [names] at h
  | cons c next ih =>
    simp only [names, List.map_cons, List.nodup_cons] at hu
    by_cases hc : c.name = name
    · have hn : name ∉ names next := by rw [← hc]; exact hu.1
      have hf : next.filter (fun c => decide (c.name ≠ name)) = next := by
        rw [List.filter_eq_self]
        intro a ha
        have : a.name ≠ name := fun e => hn (by rw [← e]; exact List.mem_map_of_mem _ ha)
        simpa using this
      simp only [decide_not] at hf
      cases before <;> simp [contact_list_remove_loop, hc, hf]
    · have hn : name ∈ names next := by
        simp only [names, List.map_cons, List.mem_cons] at h
        rcases h with h | h
        · exact absurd h.symm hc
        · exact h
      simp [contact_list_remove_loop, hc, ih _ hu.2 hn]

theorem contact_list_add_loop_absent (name : String) (show_ : Option String)
    (curr before : List contact_t) (h : name ∉ names curr) (hne : before ++ curr ≠ []) :
    contact_list_add_loop name show_ before curr
      = (1, before ++ curr ++ [{ name := name, show_ := show_ }]) := by
  induction curr generalizing before with
  | nil =>
    cases before with
    | nil => simp at hne
    | cons b bs => cases show_ <;> simp [contact_list_add_loop, _make_contact_node, _new_contact]
  | cons c next ih =>
    have hc : c.name ≠ name := fun e => h (by simp [names, e])
    have hn : name ∉ names next := fun e => h (by
      simp only [names, List.map_cons, List.mem_cons]; exact Or.inr e)
    simp [contact_list_add_loop, hc, ih (before ++ [c]) hn (by simp)]

theorem contact_list_add_loop_present (name : String) (show_ : Option String)
    (curr before : List contact_t) (h : name ∈ names curr) :
    ∃ pre c post, curr = pre ++ c :: post ∧ name ∉ names pre ∧ c.name = name ∧
      contact_list_add_loop name show_ before curr
        = (0, before ++ pre ++ contact_list_add_update c show_ :: post) := by
  induction curr generalizing before with
  | nil => simp [names] at h
  | cons c next ih =>
    by_cases hc : c.name = name
    · exact ⟨[], c, next, by simp, by simp [names], hc, by simp [contact_list_add_loop, hc]⟩
    · have hn : name ∈ names next := by
        simp only [names, List.map_cons, List.mem_cons] at h
        rcases h with h | h
        · exact absurd h.symm hc
        · exact h
      obtain ⟨pre, d, post, e1, e2, e3, e4⟩ := ih (before ++ [c]) hn
      refine ⟨c :: pre, d, post, by simp [e1], ?_, e3, ?_⟩
      · simp only [names, List.map_cons, List.mem_cons, not_or]
        exact ⟨fun e => hc e.symm, e2⟩
      · simp [contact_list_add_loop, hc, e4]

theorem contact_list_add_update_name (c : contact_t) (show_ : Option String) :
    (contact_list_add_update c show_).name = c.name := by
  unfold contact_list_add_update
  split
  · cases show_ <;> rfl
  · rfl

/-- C1 (fails on the code): starting from the empty directory,
`contact_list_add("alice", NULL)` followed by `contact_list_add("alice", "online")`
reports 0 on the second call and leaves exactly one contact named "alice", but
its status is still absent instead of "online": the stored status is replaced
only when the stored status was not `NULL`. -/
theorem contact_list_add_twice_status_not_replaced :
    contact_list_add "alice" (some "online") (contact_list_add "alice" none []).2
      = (0, [{ name := "alice", show_ := none }]) := by
  decide

/-- C6: for a name that no contact of the directory has (the empty directory
included), `contact_list_remove` returns 0 and the directory is the same list:
same contacts, same statuses, same order. -/
theorem contact_list_remove_absent (l : List contact_t) (name : String)
    (h : name ∉ names l) : contact_list_remove name l = (0, l) := by
  cases l with
  | nil => rfl
  | cons c t =>
    have := contact_list_remove_loop_absent name (c :: t) [] h
    simpa [contact_list_remove] using this

theorem contact_list_remove_absent_witness :
    "bob" ∉ names [{ name := "alice", show_ := some "away" }] ∧
    contact_list_remove "bob" [{ name := "alice", show_ := some "away" }]
      = (0, [{ name := "alice", show_ := some "away" }]) :=
  ⟨by decide, contact_list_remove_absent _ "bob" (by decide)⟩

/-- C7: in a directory with unique names, for a name that some contact has,
`contact_list_remove` returns 1; the directory afterwards is the old one with
that contact left out (every other contact kept, with its status, in the
original order), so the name is gone and the count has dropped by one. -/
theorem contact_list_remove_present (l : List contact_t) (name : String)
    (hu : (names l).Nodup) (h : name ∈ names l) :
    (contact_list_remove name l).1 = 1 ∧
    (contact_list_remove name l).2 = l.filter (fun c => decide (c.name ≠ name)) ∧
    name ∉ names (contact_list_remove name l).2 ∧
    (contact_list_remove name l).2.length + 1 = l.length := by
  have e : contact_list_remove name l
      = (1, l.filter (fun c => decide (c.name ≠ name))) := by
    cases l with
    | nil => simp [names] at h
    | cons c t =>
      have := contact_list_remove_loop_present name (c :: t) [] hu h
      simpa [contact_list_remove] using this
  have hcount : (l.filter (fun c => decide (c.name ≠ name))).length + 1 = l.length := by
    clear e
    induction l with
    | nil => simp [names] at h
    | cons c t ih =>
      simp only [names, List.map_cons, List.nodup_cons] at hu
      by_cases hc : c.name = name
      · have hn : name ∉ names t := by rw [← hc]; exact hu.1
        have hf : t.filter (fun c => decide (c.name ≠ name)) = t := by
          rw [List.filter_eq_self]
          intro a ha
          have : a.name ≠ name := fun e => hn (by rw [← e]; exact List.mem_map_of_mem _ ha)
          simpa using this
        simp only [decide_not] at hf
        simp [hc, hf]
      · have hn : name ∈ names t := by
          simp only [names, List.map_cons, List.mem_cons] at h
          rcases h with h | h
          · exact absurd h.symm hc
          · exact h
        have := ih hu.2 hn
        simp only [decide_not] at this
        simp [hc, this]
  refine ⟨by rw [e], by rw [e], ?_, by rw [e]; exact hcount⟩
  rw [e]
  simp [names, List.mem_filter]

theorem contact_list_remove_present_witness :
    (names [{ name := "alice", show_ := some "away" }, { name := "bob", show_ := none },
       { name := "carol", show_ := some "dnd" }]).Nodup ∧
    (contact_list_remove "bob"
      [{ name := "alice", show_ := some "away" }, { name := "bob", show_ := none },
       { name := "carol", show_ := some "dnd" }]).2
      = [{ name := "alice", show_ := some "away" }, { name := "carol", show_ := some "dnd" }] :=
  ⟨by decide,
   (contact_list_remove_present
    [{ name := "alice", show_ := some "away" }, { name := "bob", show_ := none },
     { name := "carol", show_ := some "dnd" }] "bob" (by decide) (by decide)).2.1.trans
    (by decide)⟩

/-- C8: for a name that no contact of the directory has, `contact_list_add`
returns 1 and the directory afterwards is the old directory, unchanged and in
the same order, followed by one new contact with that name and that status
(absent when the status is absent). -/
theorem contact_list_add_absent (l : List contact_t) (name : String)
    (status : Option String) (h : name ∉ names l) :
    contact_list_add name status l = (1, l ++ [{ name := name, show_ := status }]) := by
  cases l with
  | nil => cases status <;> rfl
  | cons c t =>
    have := contact_list_add_loop_absent name status (c :: t) [] h (by simp)
    simpa [contact_list_add] using this

theorem contact_list_add_absent_witness :
    "bob" ∉ names [{ name := "alice", show_ := some "away" }] ∧
    contact_list_add "bob" none [{ name := "alice", show_ := some "away" }]
      = (1, [{ name := "alice", show_ := some "away" }, { name := "bob", show_ := none }]) :=
  ⟨by decide, contact_list_add_absent _ "bob" none (by decide)⟩

/-- C9: for a name that some contact of the directory already has,
`contact_list_add` keeps the number of contacts and the sequence of names, and
every contact other than the first one with that name (the one the loop stops
at) is the same before and after, status included. -/
theorem contact_list_add_present_frame (l : List contact_t) (name : String)
    (status : Option String) (h : name ∈ names l) :
    (contact_list_add name status l).2.length = l.length ∧
    names (contact_list_add name status l).2 = names l ∧
    ∀ i : Nat, i ≠ (names l).indexOf name →
      (contact_list_add name status l).2[i]? = l[i]? := by
  obtain ⟨pre, c, post, e1, e2, e3, e4⟩ := contact_list_add_loop_present name status l [] h
  have e : contact_list_add name status l
      = (0, pre ++ contact_list_add_update c status :: post) := by
    cases l with
    | nil => simp [names] at h
    | cons d t => simpa [contact_list_add] using e4
  have hidx : (names l).indexOf name = pre.length := by
    rw [e1]
    simp only [names, List.map_append, List.map_cons]
    rw [List.indexOf_append_of_not_mem (by simpa [names] using e2), e3]
    simp
  rw [e, hidx]
  refine ⟨by simp [e1], by simp [e1, names, contact_list_add_update_name], ?_⟩
  intro i hi
  rw [e1]
  rcases Nat.lt_or_gt_of_ne hi with hlt | hgt
  · rw [List.getElem?_append_left hlt, List.getElem?_append_left hlt]
  · rw [List.getElem?_append_right (Nat.le_of_lt hgt),
      List.getElem?_append_right (Nat.le_of_lt hgt)]
    obtain ⟨k, hk⟩ : ∃ k, i - pre.length = k + 1 := ⟨i - pre.length - 1, by omega⟩
    rw [hk]
    simp

theorem contact_list_add_present_frame_witness :
    "bob" ∈ names [{ name := "alice", show_ := some "away" }, { name := "bob", show_ := some "xa" }] ∧
    names (contact_list_add "bob" (some "chat")
      [{ name := "alice", show_ := some "away" }, { name := "bob", show_ := some "xa" }]).2
      = ["alice", "bob"] :=
  ⟨by decide,
   (contact_list_add_present_frame
    [{ name := "alice", show_ := some "away" }, { name := "bob", show_ := some "xa" }]
    "bob" (some "chat") (by decide)).2.1.trans (by decide)⟩

theorem get_contact_list_nil : get_contact_list [] = some { contacts := none, size := 0 } := rfl

theorem get_contact_list_single (c : contact_t) :
    get_contact_list [c] = some { contacts := some [c], size := 1 } := by
  rcases c with ⟨n, s⟩
  cases s <;> rfl

theorem get_contact_list_two_or_more (c d : contact_t) (t : List contact_t) :
    get_contact_list (c :: d :: t) = none := by
  simp [get_contact_list, get_contact_list_loop, contacts_block_slots]

/-- C10 (fails on the code): for the directory holding "alice" and "bob",
`get_contact_list` stores the copy of the second contact at `contacts[1]` of a
block allocated for a single pointer, so no snapshot of size 2 with both
contacts is produced. -/
theorem get_contact_list_two_contacts_out_of_block :
    get_contact_list
      [{ name := "alice", show_ := some "available" }, { name := "bob", show_ := none }]
      = none := by
  decide

/-! ## Properties of the event handlers -/

theorem strcmp_eq_zero (a b : String) : strcmp a b = 0 ↔ a = b := by
  unfold strcmp
  by_cases h : a = b
  · simp [h]
  · by_cases h2 : a < b <;> simp [h, h2]

theorem g_strcmp0_eq_zero (a b : Option String) : g_strcmp0 a b = 0 ↔ a = b := by
  cases a <;> cases b <;> simp [g_strcmp0, strcmp_eq_zero]

theorem emitted_self {σ : Type} (w : World σ) : emitted w w = [] := by
  simp [emitted]

theorem emitted_call {σ : Type} (c : Collab σ) (w : World σ) (k : Call) :
    emitted w (w.call c k) = [k] := by
  simp [emitted, World.call]

theorem emitted_call2 {σ : Type} (c : Collab σ) (w : World σ) (k1 k2 : Call) :
    emitted w ((w.call c k1).call c k2) = [k1, k2] := by
  simp [emitted, World.call]

theorem emitted_call3 {σ : Type} (c : Collab σ) (w : World σ) (k1 k2 k3 : Call) :
    emitted w (((w.call c k1).call c k2).call c k3) = [k1, k2, k3] := by
  simp [emitted, World.call]

/-- C3: `handle_room_invite` makes the calls `cons_show_room_invite`,
`muc_add_invite`, `ui_current_page_off` and the room is then in the invite set
exactly when the room is not active and not already in the invite set;
otherwise it makes no call and the invite set is the same. The stores are
never changed. So a prompt is shown if and only if the room is neither active
nor already invited, and never when the room is active. -/
theorem handle_room_invite_prompt_iff {σ : Type} (c : Collab σ)
    (invite_type : jabber_invite_t) (invitor room : String) (reason : Option String)
    (w : World σ) :
    emitted w (handle_room_invite c invite_type invitor room reason w)
      = (if c.muc_room_is_active (c.jid_create room) w.ext = false ∧ room ∉ w.invites then
          [Call.cons_show_room_invite invitor room reason, Call.muc_add_invite room,
           Call.ui_current_page_off]
         else []) ∧
    (handle_room_invite c invite_type invitor room reason w).invites
      = (if c.muc_room_is_active (c.jid_create room) w.ext = false ∧ room ∉ w.invites then
          w.invites ++ [room]
         else w.invites) ∧
    (handle_room_invite c invite_type invitor room reason w).ext = w.ext ∧
    ((∃ i r x, Call.cons_show_room_invite i r x ∈
        emitted w (handle_room_invite c invite_type invitor room reason w))
      ↔ (c.muc_room_is_active (c.jid_create room) w.ext = false ∧ room ∉ w.invites)) ∧
    (c.muc_room_is_active (c.jid_create room) w.ext = true →
      ∀ i r x, Call.cons_show_room_invite i r x ∉
        emitted w (handle_room_invite c invite_type invitor room reason w)) := by
  by_cases ha : c.muc_room_is_active (c.jid_create room) w.ext = true
  · simp [handle_room_invite, ha, emitted_self]
  · by_cases hi : room ∈ w.invites
    · simp [handle_room_invite, ha, hi, muc_invites_include, emitted_self]
    · simp only [Bool.not_eq_true] at ha
      simp [handle_room_invite, ha, hi, muc_invites_include, emitted_call3]
      simp [World.call, invites_after, muc_add_invite, hi, Collab.effect]

theorem handle_room_invite_prompt_iff_witness :
    ∀ i r x, Call.cons_show_room_invite i r x ∉
      emitted (sample_world "on")
        (handle_room_invite sample_collab 0 "bob" "lobby@conf" none (sample_world "on")) :=
  (handle_room_invite_prompt_iff sample_collab 0 "bob" "lobby@conf" none
    (sample_world "on")).2.2.2.2 (by decide)

/-- C5: `handle_error_message` always passes the error to the UI first, and it
then leaves the room named by the sender's bare jid exactly when the message is
the literal "conflict" and the roster of that room has not been received; an
absent message is never "conflict". -/
theorem handle_error_message_calls {σ : Type} (c : Collab σ) (from_ : String)
    (err_msg : Option String) (w : World σ) :
    emitted w (handle_error_message c from_ err_msg w)
      = Call.ui_handle_error_message from_ err_msg ::
        (if err_msg = some "conflict" ∧
            c.muc_get_roster_received (c.jid_create from_).barejid w.ext = false then
          [Call.muc_leave_room (c.jid_create from_).barejid]
         else []) ∧
    ((∃ r, Call.muc_leave_room r ∈ emitted w (handle_error_message c from_ err_msg w))
      ↔ (err_msg = some "conflict" ∧
          c.muc_get_roster_received (c.jid_create from_).barejid w.ext = false)) := by
  have hext : ∀ m, (w.call c (Call.ui_handle_error_message from_ m)).ext = w.ext := by
    intro m; simp [World.call, Collab.effect]
  by_cases hm : err_msg = some "conflict"
  · by_cases hr : c.muc_get_roster_received (c.jid_create from_).barejid w.ext = true
    · simp [handle_error_message, hm, hr, hext, g_strcmp0_eq_zero, emitted_call, g_strcmp0,
        strcmp]
    · simp only [Bool.not_eq_true] at hr
      simp [handle_error_message, hm, hr, hext, emitted_call2, g_strcmp0, strcmp]
  · have hg : ¬ g_strcmp0 err_msg (some "conflict") = 0 := by
      rw [g_strcmp0_eq_zero]; exact hm
    simp [handle_error_message, hm, hg, emitted_call]

theorem handle_error_message_calls_witness :
    emitted (sample_world "on")
        (handle_error_message sample_collab "hall@conf/me" (some "conflict") (sample_world "on"))
      = [Call.ui_handle_error_message "hall@conf/me" (some "conflict"),
         Call.muc_leave_room "hall@conf/me"] :=
  (handle_error_message_calls sample_collab "hall@conf/me" (some "conflict")
    (sample_world "on")).1.trans (by decide)

theorem handle_contact_online_emitted {σ : Type} (c : Collab σ) (contact : String)
    (resource : Resource) (last_activity : Option GDateTime) (w : World σ) :
    emitted w (handle_contact_online c contact resource last_activity w)
      = Call.roster_update_presence contact resource last_activity ::
        (if (c.roster_update_presence contact resource last_activity w.ext).1 = true ∧
            w.prefs.prefs_get_boolean preference_t.PREF_STATUSES = true ∧
            ∃ sub, p_contact_subscription (c.roster_get_contact contact
              (c.roster_update_presence contact resource last_activity w.ext).2) = some sub ∧
              sub ≠ "none" then
          [Call.ui_contact_online contact resource.name
             (c.string_from_resource_presence resource.presence) resource.status last_activity,
           Call.ui_current_page_off]
         else []) := by
  have hext : (w.call c (Call.roster_update_presence contact resource last_activity)).ext
      = (c.roster_update_presence contact resource last_activity w.ext).2 := by
    simp [World.call, Collab.effect]
  have hprefs : (w.call c (Call.roster_update_presence contact resource last_activity)).prefs
      = w.prefs := rfl
  unfold handle_contact_online
  simp only [hext, hprefs]
  by_cases hu : (c.roster_update_presence contact resource last_activity w.ext).1 = true
  · by_cases hp : w.prefs.prefs_get_boolean preference_t.PREF_STATUSES = true
    · cases hs : p_contact_subscription (c.roster_get_contact contact
          (c.roster_update_presence contact resource last_activity w.ext).2) with
      | none => simp [hu, hp, emitted_call]
      | some sub =>
        by_cases hn : sub = "none"
        · simp [hu, hp, hn, strcmp_eq_zero, emitted_call]
        · simp [hu, hp, hn, strcmp_eq_zero, emitted_call3]
    · simp [hu, hp, emitted_call]
  · simp [hu, emitted_call]

theorem handle_contact_offline_emitted {σ : Type} (c : Collab σ) (contact : String)
    (resource : Option String) (status : Option String) (w : World σ) :
    emitted w (handle_contact_offline c contact resource status w)
      = Call.roster_contact_offline contact resource status ::
        (match resource with
         | none => []
         | some res =>
           if (c.roster_contact_offline contact resource status w.ext).1 = true ∧
              w.prefs.prefs_get_boolean preference_t.PREF_STATUSES = true ∧
              ∃ sub, p_contact_subscription (c.roster_get_contact contact
                (c.roster_contact_offline contact resource status w.ext).2) = some sub ∧
                sub ≠ "none" then
             [Call.ui_contact_offline
                (c.jid_create_from_bare_and_resource contact res).fulljid "offline" status,
              Call.ui_current_page_off]
           else []) := by
  have hext : (w.call c (Call.roster_contact_offline contact resource status)).ext
      = (c.roster_contact_offline contact resource status w.ext).2 := by
    simp [World.call, Collab.effect]
  have hprefs : (w.call c (Call.roster_contact_offline contact resource status)).prefs
      = w.prefs := rfl
  unfold handle_contact_offline
  simp only [hext, hprefs]
  cases resource with
  | none => simp [emitted_call]
  | some res =>
    by_cases hu : (c.roster_contact_offline contact (some res) status w.ext).1 = true
    · by_cases hp : w.prefs.prefs_get_boolean preference_t.PREF_STATUSES = true
      · cases hs : p_contact_subscription (c.roster_get_contact contact
            (c.roster_contact_offline contact (some res) status w.ext).2) with
        | none => simp [hu, hp, emitted_call]
        | some sub =>
          by_cases hn : sub = "none"
          · simp [hu, hp, hn, strcmp_eq_zero, emitted_call]
          · simp [hu, hp, hn, strcmp_eq_zero, emitted_call3]
      · simp [hu, hp, emitted_call]
    · simp [hu, emitted_call]

/-- C4: `handle_contact_online` calls `roster_update_presence` first, and it
calls `ui_contact_online` only if that update returned true, the preference
`PREF_STATUSES` is enabled and the subscription of the contact (as the roster
store gives it after the update) is not "none"; with subscription "none" it
never calls `ui_contact_online`. The same holds for `handle_contact_offline`
with `roster_contact_offline` and `ui_contact_offline`. -/
theorem handle_contact_presence_gate {σ : Type} (c : Collab σ) (contact : String)
    (resource : Resource) (last_activity : Option GDateTime)
    (off_resource : Option String) (status : Option String) (w : World σ) :
    ((emitted w (handle_contact_online c contact resource last_activity w)).head?
        = some (Call.roster_update_presence contact resource last_activity) ∧
     ((∃ a b s st la, Call.ui_contact_online a b s st la ∈
          emitted w (handle_contact_online c contact resource last_activity w)) →
        (c.roster_update_presence contact resource last_activity w.ext).1 = true ∧
        w.prefs.prefs_get_boolean preference_t.PREF_STATUSES = true ∧
        p_contact_subscription (c.roster_get_contact contact
          (c.roster_update_presence contact resource last_activity w.ext).2) ≠ some "none") ∧
     (p_contact_subscription (c.roster_get_contact contact
          (c.roster_update_presence contact resource last_activity w.ext).2) = some "none" →
        ∀ a b s st la, Call.ui_contact_online a b s st la ∉
          emitted w (handle_contact_online c contact resource last_activity w))) ∧
    ((emitted w (handle_contact_offline c contact off_resource status w)).head?
        = some (Call.roster_contact_offline contact off_resource status) ∧
     ((∃ a s st, Call.ui_contact_offline a s st ∈
          emitted w (handle_contact_offline c contact off_resource status w)) →
        (c.roster_contact_offline contact off_resource status w.ext).1 = true ∧
        w.prefs.prefs_get_boolean preference_t.PREF_STATUSES = true ∧
        p_contact_subscription (c.roster_get_contact contact
          (c.roster_contact_offline contact off_resource status w.ext).2) ≠ some "none") ∧
     (p_contact_subscription (c.roster_get_contact contact
          (c.roster_contact_offline contact off_resource status w.ext).2) = some "none" →
        ∀ a s st, Call.ui_contact_offline a s st ∉
          emitted w (handle_contact_offline c contact off_resource status w))) := by
  rw [handle_contact_online_emitted, handle_contact_offline_emitted]
  refine ⟨⟨rfl, ?_, ?_⟩, ⟨rfl, ?_, ?_⟩⟩
  · rintro ⟨a, b, s, st, la, hmem⟩
    split at hmem
    · rename_i hc
      obtain ⟨h1, h2, sub, h3, h4⟩ := hc
      refine ⟨h1, h2, ?_⟩
      rw [h3]; simpa using h4
    · simp at hmem
  · intro hnone a b s st la hmem
    split at hmem
    · rename_i hc
      obtain ⟨_, _, sub, h3, h4⟩ := hc
      rw [hnone] at h3
      exact h4 (by simpa using h3.symm)
    · simp at hmem
  · rintro ⟨a, s, st, hmem⟩
    cases off_resource with
    | none => simp at hmem
    | some res =>
      simp only at hmem
      split at hmem
      · rename_i hc
        obtain ⟨h1, h2, sub, h3, h4⟩ := hc
        refine ⟨h1, h2, ?_⟩
        rw [h3]; simpa using h4
      · simp at hmem
  · intro hnone a s st hmem
    cases off_resource with
    | none => simp at hmem
    | some res =>
      simp only at hmem
      split at hmem
      · rename_i hc
        obtain ⟨_, _, sub, h3, h4⟩ := hc
        rw [hnone] at h3
        exact h4 (by simpa using h3.symm)
      · simp at hmem

theorem handle_contact_presence_gate_witness :
    ∀ a b s st la, Call.ui_contact_online a b s st la ∉
      emitted (sample_world "on")
        (handle_contact_online sample_collab "mallory"
          { name := "phone", presence := 0, status := some "here" } none (sample_world "on")) :=
  (handle_contact_presence_gate sample_collab "mallory"
    { name := "phone", presence := 0, status := some "here" } none (some "phone") none
    (sample_world "on")).1.2.2 (by decide)

theorem handle_incoming_message_decrypted_emitted {σ : Type} (c : Collab σ)
    (from_ message p : String) (s2 : σ) (w : World σ)
    (hd : c.otr_decrypt_message from_ message w.ext = ((some p, true), s2))
    (hlog : w.prefs.prefs_get_boolean preference_t.PREF_CHLOG = true) :
    emitted w (handle_incoming_message true c from_ message false w)
      = [Call.otr_decrypt_message from_ message, Call.ui_incoming_msg from_ p none false,
         Call.ui_current_page_off] ++
        (if w.prefs.prefs_get_string preference_t.PREF_OTR_LOG = "on" then
          [Call.chat_log_chat (c.jid_create (c.jabber_get_fulljid s2)).barejid
             (c.jid_create from_).barejid p chat_log_direction_t.PROF_IN_LOG none]
         else if w.prefs.prefs_get_string preference_t.PREF_OTR_LOG = "redact" then
          [Call.chat_log_chat (c.jid_create (c.jabber_get_fulljid s2)).barejid
             (c.jid_create from_).barejid "[redacted]" chat_log_direction_t.PROF_IN_LOG none]
         else []) ++
        [Call.otr_free_message p] := by
  by_cases hon : w.prefs.prefs_get_string preference_t.PREF_OTR_LOG = "on"
  · simp [handle_incoming_message, handle_incoming_message_shown, hd, World.call, hlog,
      strcmp_eq_zero, hon, emitted, Collab.effect]
  · by_cases hre : w.prefs.prefs_get_string preference_t.PREF_OTR_LOG = "redact"
    · simp [handle_incoming_message, handle_incoming_message_shown, hd, World.call, hlog,
        strcmp_eq_zero, hre, emitted, Collab.effect]
    · simp [handle_incoming_message, handle_incoming_message_shown, hd, World.call, hlog,
        strcmp_eq_zero, hon, hre, emitted, Collab.effect]

/-- C2: in the crypto build, for a non-private message that decryption turns
into the plaintext `p` with `was_decrypted` set, and with `PREF_CHLOG` enabled:
the UI is shown `p` once, whatever the policy; with policy "redact" the logger
is called exactly once, with the text "[redacted]" (so not with `p`, unless `p`
is that very text); with policy "off" the logger is not called; with policy
"on" the logger is called exactly once, with `p`. -/
theorem handle_incoming_message_redaction {σ : Type} (c : Collab σ)
    (from_ message p : String) (s2 : σ) (w : World σ)
    (hd : c.otr_decrypt_message from_ message w.ext = ((some p, true), s2))
    (hlog : w.prefs.prefs_get_boolean preference_t.PREF_CHLOG = true) :
    shown (emitted w (handle_incoming_message true c from_ message false w)) = [(p, none)] ∧
    Call.ui_incoming_msg from_ p none false ∈
      emitted w (handle_incoming_message true c from_ message false w) ∧
    (w.prefs.prefs_get_string preference_t.PREF_OTR_LOG = "redact" →
      (emitted w (handle_incoming_message true c from_ message false w)).filter
          is_chat_log_chat
        = [Call.chat_log_chat (c.jid_create (c.jabber_get_fulljid s2)).barejid
            (c.jid_create from_).barejid "[redacted]" chat_log_direction_t.PROF_IN_LOG none] ∧
      logged (emitted w (handle_incoming_message true c from_ message false w))
        = [("[redacted]", none)] ∧
      (p ≠ "[redacted]" → ∀ a b d t, Call.chat_log_chat a b p d t ∉
        emitted w (handle_incoming_message true c from_ message false w))) ∧
    (w.prefs.prefs_get_string preference_t.PREF_OTR_LOG = "off" →
      logged (emitted w (handle_incoming_message true c from_ message false w)) = [] ∧
      ∀ a b m d t, Call.chat_log_chat a b m d t ∉
        emitted w (handle_incoming_message true c from_ message false w)) ∧
    (w.prefs.prefs_get_string preference_t.PREF_OTR_LOG = "on" →
      (emitted w (handle_incoming_message true c from_ message false w)).filter
          is_chat_log_chat
        = [Call.chat_log_chat (c.jid_create (c.jabber_get_fulljid s2)).barejid
            (c.jid_create from_).barejid p chat_log_direction_t.PROF_IN_LOG none] ∧
      logged (emitted w (handle_incoming_message true c from_ message false w))
        = [(p, none)]) := by
  rw [handle_incoming_message_decrypted_emitted c from_ message p s2 w hd hlog]
  refine ⟨?_, by simp, ?_, ?_, ?_⟩
  · by_cases hon : w.prefs.prefs_get_string preference_t.PREF_OTR_LOG = "on"
    · simp [hon, shown]
    · by_cases hre : w.prefs.prefs_get_string preference_t.PREF_OTR_LOG = "redact"
      · simp [hre, shown]
      · simp [hon, hre, shown]
  · intro hre
    simp [hre, logged, List.filter, is_chat_log_chat]
    intro hp a b d t _ _ h
    exact absurd h hp
  · intro hoff
    simp [hoff, logged]
  · intro hon
    simp [hon, logged, List.filter, is_chat_log_chat]

theorem handle_incoming_message_redaction_witness :
    sample_collab.otr_decrypt_message "bob@server" "?OTR:xyz" (sample_world "redact").ext
      = ((some "hello", true), ()) ∧
    shown (emitted (sample_world "redact")
      (handle_incoming_message true sample_collab "bob@server" "?OTR:xyz" false
        (sample_world "redact"))) = [("hello", none)] ∧
    logged (emitted (sample_world "redact")
      (handle_incoming_message true sample_collab "bob@server" "?OTR:xyz" false
        (sample_world "redact"))) = [("[redacted]", none)] :=
  ⟨by decide,
   (handle_incoming_message_redaction sample_collab "bob@server" "?OTR:xyz" "hello" ()
      (sample_world "redact") (by decide) (by decide)).1,
   ((handle_incoming_message_redaction sample_collab "bob@server" "?OTR:xyz" "hello" ()
      (sample_world "redact") (by decide) (by decide)).2.2.1 (by decide)).2.1⟩

/-! ## Clearing, the end-to-end sequence -/

/-- C11: for every directory, `contact_list_clear` followed by
`get_contact_list` gives a snapshot of size 0 with no contacts; clearing twice
gives the same empty directory as clearing once, and clearing the empty
directory leaves it empty. -/
theorem contact_list_clear_snapshot_empty (l : List contact_t) :
    get_contact_list (contact_list_clear l) = some { contacts := none, size := 0 } ∧
    contact_list_clear l = [] ∧
    contact_list_clear (contact_list_clear l) = contact_list_clear l ∧
    contact_list_clear [] = [] := by
  cases l <;> exact ⟨rfl, rfl, rfl, rfl⟩

/-- C18: starting from the empty directory, for every name and statuses `s1`,
`s2`, the sequence `contact_list_add(name, s1)`, `contact_list_add(name, s2)`,
`contact_list_remove(name)` reports 1, 0, 1 and ends in a directory whose
snapshot has size 0; in particular for "alice", "available", absent. -/
theorem add_add_remove_snapshot_empty (name : String) (s1 s2 : Option String) :
    (contact_list_add name s1 []).1 = 1 ∧
    (contact_list_add name s2 (contact_list_add name s1 []).2).1 = 0 ∧
    (contact_list_remove name
      (contact_list_add name s2 (contact_list_add name s1 []).2).2).1 = 1 ∧
    get_contact_list (contact_list_remove name
      (contact_list_add name s2 (contact_list_add name s1 []).2).2).2
      = some { contacts := none, size := 0 } ∧
    get_contact_list (contact_list_remove "alice"
      (contact_list_add "alice" none (contact_list_add "alice" (some "available") []).2).2).2
      = some { contacts := none, size := 0 } := by
  have h : ∀ (n : String) (a b : Option String),
      contact_list_add n a [] = (1, [_new_contact n a]) ∧
      contact_list_add n b [_new_contact n a]
        = (0, [contact_list_add_update (_new_contact n a) b]) ∧
      contact_list_remove n [contact_list_add_update (_new_contact n a) b] = (1, []) := by
    intro n a b
    have hn : (_new_contact n a).name = n := by cases a <;> rfl
    refine ⟨rfl, ?_, ?_⟩
    · simp [contact_list_add, contact_list_add_loop, hn]
    · simp [contact_list_remove, contact_list_remove_loop, contact_list_add_update_name, hn]
  obtain ⟨h1, h2, h3⟩ := h name s1 s2
  obtain ⟨k1, k2, k3⟩ := h "alice" (some "available") none
  rw [h1, h2, h3, k1, k2, k3]
  exact ⟨rfl, rfl, rfl, rfl, rfl⟩

/-! ## Messages: dropped, delayed, private -/

/-- C14: in the crypto build, for a non-private message for which
`otr_decrypt_message` returns `NULL`, the only call of `handle_incoming_message`
is the decryption itself: no call to the UI and none to the logger, whatever
the preferences. -/
theorem handle_incoming_message_internal_dropped {σ : Type} (c : Collab σ)
    (from_ message : String) (w : World σ)
    (hd : (c.otr_decrypt_message from_ message w.ext).1.1 = none) :
    emitted w (handle_incoming_message true c from_ message false w)
      = [Call.otr_decrypt_message from_ message] ∧
    shown (emitted w (handle_incoming_message true c from_ message false w)) = [] ∧
    logged (emitted w (handle_incoming_message true c from_ message false w)) = [] := by
  have e : emitted w (handle_incoming_message true c from_ message false w)
      = [Call.otr_decrypt_message from_ message] := by
    simp [handle_incoming_message, hd, emitted_call]
  rw [e]
  exact ⟨rfl, rfl, rfl⟩

theorem handle_incoming_message_internal_dropped_witness :
    (sample_collab.otr_decrypt_message "bob@server" "?OTR:init" (sample_world "on").ext).1.1
      = none ∧
    emitted (sample_world "on")
      (handle_incoming_message true sample_collab "bob@server" "?OTR:init" false
        (sample_world "on"))
      = [Call.otr_decrypt_message "bob@server" "?OTR:init"] :=
  ⟨by decide,
   (handle_incoming_message_internal_dropped sample_collab "bob@server" "?OTR:init"
      (sample_world "on") (by decide)).1⟩

/-- C17: `handle_delayed_message` shows the message with exactly the given
timestamp, and its only logger call, made when `PREF_CHLOG` is enabled and the
message is not private, carries exactly that timestamp too. -/
theorem handle_delayed_message_timestamp {σ : Type} (c : Collab σ)
    (from_ message : String) (tv_stamp : GTimeVal) (priv : Bool) (w : World σ) :
    emitted w (handle_delayed_message c from_ message tv_stamp priv w)
      = [Call.ui_incoming_msg from_ message (some tv_stamp) priv, Call.ui_current_page_off] ++
        (if w.prefs.prefs_get_boolean preference_t.PREF_CHLOG = true ∧ priv = false then
          [Call.chat_log_chat (c.jid_create (c.jabber_get_fulljid w.ext)).barejid
             (c.jid_create from_).barejid message chat_log_direction_t.PROF_IN_LOG
             (some tv_stamp)]
         else []) ∧
    shown (emitted w (handle_delayed_message c from_ message tv_stamp priv w))
      = [(message, some tv_stamp)] ∧
    logged (emitted w (handle_delayed_message c from_ message tv_stamp priv w))
      = (if w.prefs.prefs_get_boolean preference_t.PREF_CHLOG = true ∧ priv = false then
          [(message, some tv_stamp)]
         else []) := by
  have e : emitted w (handle_delayed_message c from_ message tv_stamp priv w)
      = [Call.ui_incoming_msg from_ message (some tv_stamp) priv, Call.ui_current_page_off] ++
        (if w.prefs.prefs_get_boolean preference_t.PREF_CHLOG = true ∧ priv = false then
          [Call.chat_log_chat (c.jid_create (c.jabber_get_fulljid w.ext)).barejid
             (c.jid_create from_).barejid message chat_log_direction_t.PROF_IN_LOG
             (some tv_stamp)]
         else []) := by
    by_cases hl : w.prefs.prefs_get_boolean preference_t.PREF_CHLOG = true
    · cases priv <;>
        simp [handle_delayed_message, World.call, hl, emitted, Collab.effect]
    · cases priv <;>
        simp [handle_delayed_message, World.call, hl, emitted, Collab.effect]
  rw [e]
  refine ⟨rfl, ?_, ?_⟩
  · split <;> simp [shown]
  · split <;> simp [logged]

/-- C19: a private message is never logged. With `priv` set,
`handle_incoming_message` in either build makes exactly the two UI calls, with
the message as received and without a decryption call, and
`handle_delayed_message` makes exactly the two UI calls; no call to
`chat_log_chat` is made, whatever the preferences. -/
theorem private_message_not_logged {σ : Type} (c : Collab σ) (HAVE_LIBOTR : Bool)
    (from_ message : String) (tv_stamp : GTimeVal) (w : World σ) :
    emitted w (handle_incoming_message HAVE_LIBOTR c from_ message true w)
      = [Call.ui_incoming_msg from_ message none true, Call.ui_current_page_off] ∧
    logged (emitted w (handle_incoming_message HAVE_LIBOTR c from_ message true w)) = [] ∧
    emitted w (handle_delayed_message c from_ message tv_stamp true w)
      = [Call.ui_incoming_msg from_ message (some tv_stamp) true, Call.ui_current_page_off] ∧
    logged (emitted w (handle_delayed_message c from_ message tv_stamp true w)) = [] := by
  have e1 : emitted w (handle_incoming_message HAVE_LIBOTR c from_ message true w)
      = [Call.ui_incoming_msg from_ message none true, Call.ui_current_page_off] := by
    cases HAVE_LIBOTR <;>
      simp [handle_incoming_message, handle_incoming_message_shown, emitted_call2]
  have e2 : emitted w (handle_delayed_message c from_ message tv_stamp true w)
      = [Call.ui_incoming_msg from_ message (some tv_stamp) true, Call.ui_current_page_off] := by
    simp [handle_delayed_message, emitted_call2]
  rw [e1, e2]
  exact ⟨rfl, rfl, rfl, rfl⟩

/-! ## Room members and contact presence -/

/-- C15 (fails as stated): for the member "bob" becoming "robert" in
"lobby@conf", `handle_room_member_nick_change` makes the two UI calls and no
call to `muc_add_to_roster`: it notifies but does not update the room roster. -/
theorem handle_room_member_nick_change_no_roster_call :
    emitted (sample_world "on")
        (handle_room_member_nick_change sample_collab "lobby@conf" "bob" "robert"
          (sample_world "on"))
      = [Call.ui_room_member_nick_change "lobby@conf" "bob" "robert",
         Call.ui_current_page_off] ∧
    ¬ ∃ r n s st cs, Call.muc_add_to_roster r n s st cs ∈
      emitted (sample_world "on")
        (handle_room_member_nick_change sample_collab "lobby@conf" "bob" "robert"
          (sample_world "on")) := by
  have e : emitted (sample_world "on")
        (handle_room_member_nick_change sample_collab "lobby@conf" "bob" "robert"
          (sample_world "on"))
      = [Call.ui_room_member_nick_change "lobby@conf" "bob" "robert",
         Call.ui_current_page_off] := by
    simp [handle_room_member_nick_change, emitted_call2]
  rw [e]
  simp

/-- C15 (amended): `handle_room_member_online` always calls
`muc_add_to_roster` and then notifies the UI (`ui_room_member_online`);
`handle_room_member_nick_change` and `handle_room_nick_change` always notify
the UI and make no other call, leaving the stores as they are. -/
theorem handle_room_member_online_and_nick_change {σ : Type} (c : Collab σ)
    (room nick old_nick : String) (show_ status caps_str : Option String) (w : World σ) :
    emitted w (handle_room_member_online c room nick show_ status caps_str w)
      = [Call.muc_add_to_roster room nick show_ status caps_str,
         Call.ui_room_member_online room nick show_ status, Call.ui_current_page_off] ∧
    (handle_room_member_online c room nick show_ status caps_str w).ext
      = (c.muc_add_to_roster room nick show_ status caps_str w.ext).2 ∧
    emitted w (handle_room_member_nick_change c room old_nick nick w)
      = [Call.ui_room_member_nick_change room old_nick nick, Call.ui_current_page_off] ∧
    (handle_room_member_nick_change c room old_nick nick w).ext = w.ext ∧
    emitted w (handle_room_nick_change c room nick w)
      = [Call.ui_room_nick_change room nick, Call.ui_current_page_off] ∧
    (handle_room_nick_change c room nick w).ext = w.ext := by
  refine ⟨?_, ?_, ?_, ?_, ?_, ?_⟩
  · simp [handle_room_member_online, emitted_call3]
  · simp [handle_room_member_online, World.call, Collab.effect]
  · simp [handle_room_member_nick_change, emitted_call2]
  · simp [handle_room_member_nick_change, World.call, Collab.effect]
  · simp [handle_room_nick_change, emitted_call2]
  · simp [handle_room_nick_change, World.call, Collab.effect]

/-- C16: `handle_room_member_presence` always calls `muc_add_to_roster` first,
and it calls `ui_room_member_presence` (followed by `ui_current_page_off`)
exactly when that call returned true; when it returned false, as for a
repeated identical update, there is no UI call. -/
theorem handle_room_member_presence_calls {σ : Type} (c : Collab σ)
    (room nick : String) (show_ status caps_str : Option String) (w : World σ) :
    emitted w (handle_room_member_presence c room nick show_ status caps_str w)
      = Call.muc_add_to_roster room nick show_ status caps_str ::
        (if (c.muc_add_to_roster room nick show_ status caps_str w.ext).1 = true then
          [Call.ui_room_member_presence room nick show_ status, Call.ui_current_page_off]
         else []) ∧
    (handle_room_member_presence c room nick show_ status caps_str w).ext
      = (c.muc_add_to_roster room nick show_ status caps_str w.ext).2 ∧
    ((∃ r n s st, Call.ui_room_member_presence r n s st ∈
        emitted w (handle_room_member_presence c room nick show_ status caps_str w))
      ↔ (c.muc_add_to_roster room nick show_ status caps_str w.ext).1 = true) := by
  have e : emitted w (handle_room_member_presence c room nick show_ status caps_str w)
      = Call.muc_add_to_roster room nick show_ status caps_str ::
        (if (c.muc_add_to_roster room nick show_ status caps_str w.ext).1 = true then
          [Call.ui_room_member_presence room nick show_ status, Call.ui_current_page_off]
         else []) := by
    by_cases hu : (c.muc_add_to_roster room nick show_ status caps_str w.ext).1 = true
    · simp [handle_room_member_presence, hu, emitted_call3]
    · simp [handle_room_member_presence, hu, emitted_call]
  rw [e]
  refine ⟨rfl, ?_, ?_⟩
  · by_cases hu : (c.muc_add_to_roster room nick show_ status caps_str w.ext).1 = true
    · simp [handle_room_member_presence, hu, World.call, Collab.effect]
    · simp [handle_room_member_presence, hu, World.call, Collab.effect]
  · by_cases hu : (c.muc_add_to_roster room nick show_ status caps_str w.ext).1 = true
    · simp [hu]
    · simp [hu]

/-- C20: `handle_contact_offline` calls `ui_contact_offline` if and only if
the resource is not `NULL`, `roster_contact_offline` returned true,
`PREF_STATUSES` is enabled, and the subscription of the contact (as the roster
store gives it after the update) is present and is not "none". So without a
resource, or for a contact with no subscription value, the UI is not
notified. -/
theorem handle_contact_offline_notifies_iff {σ : Type} (c : Collab σ) (contact : String)
    (resource : Option String) (status : Option String) (w : World σ) :
    ((∃ a s st, Call.ui_contact_offline a s st ∈
        emitted w (handle_contact_offline c contact resource status w))
      ↔ (resource ≠ none ∧
         (c.roster_contact_offline contact resource status w.ext).1 = true ∧
         w.prefs.prefs_get_boolean preference_t.PREF_STATUSES = true ∧
         ∃ sub, p_contact_subscription (c.roster_get_contact contact
           (c.roster_contact_offline contact resource status w.ext).2) = some sub ∧
           sub ≠ "none")) ∧
    (resource = none →
      emitted w (handle_contact_offline c contact resource status w)
        = [Call.roster_contact_offline contact resource status]) ∧
    (p_contact_subscription (c.roster_get_contact contact
        (c.roster_contact_offline contact resource status w.ext).2) = none →
      emitted w (handle_contact_offline c contact resource status w)
        = [Call.roster_contact_offline contact resource status]) := by
  rw [handle_contact_offline_emitted]
  cases resource with
  | none => simp
  | some res =>
    by_cases hc : (c.roster_contact_offline contact (some res) status w.ext).1 = true ∧
        w.prefs.prefs_get_boolean preference_t.PREF_STATUSES = true ∧
        ∃ sub, p_contact_subscription (c.roster_get_contact contact
          (c.roster_contact_offline contact (some res) status w.ext).2) = some sub ∧
          sub ≠ "none"
    · refine ⟨?_, by simp, ?_⟩
      · simp only [if_pos hc]
        constructor
        · intro _
          exact ⟨by simp, hc⟩
        · intro _
          exact ⟨(c.jid_create_from_bare_and_resource contact res).fulljid, "offline", status,
            by simp⟩
      · intro hn
        obtain ⟨_, _, sub, h3, _⟩ := hc
        rw [hn] at h3
        cases h3
    · refine ⟨?_, by simp, ?_⟩
      · simp only [if_neg hc]
        constructor
        · rintro ⟨a, s, st, hm⟩
          simp at hm
        · rintro ⟨_, h⟩
          exact absurd h hc
      · intro _
        simp only [if_neg hc]

theorem handle_contact_offline_notifies_iff_witness :
    emitted (sample_world "on")
        (handle_contact_offline sample_collab "alice" none (some "bye") (sample_world "on"))
      = [Call.roster_contact_offline "alice" none (some "bye")] :=
  (handle_contact_offline_notifies_iff sample_collab "alice" none (some "bye")
    (sample_world "on")).2.1 rfl

/-! ## Uniqueness of names -/

theorem contact_list_add_of_not_mem (l : List contact_t) (name : String)
    (status : Option String) (h : name ∉ names l) :
    (contact_list_add name status l).2 = l ++ [{ name := name, show_ := status }] := by
  cases l with
  | nil => cases status <;> rfl
  | cons c t =>
    have := contact_list_add_loop_absent name status (c :: t) [] h (by simp)
    simp only [contact_list_add, this, List.nil_append]

theorem contact_list_add_names_of_mem (l : List contact_t) (name : String)
    (status : Option String) (h : name ∈ names l) :
    names (contact_list_add name status l).2 = names l := by
  obtain ⟨pre, c, post, e1, _, _, e4⟩ := contact_list_add_loop_present name status l [] h
  cases l with
  | nil => simp [names] at h
  | cons d t =>
    simp only [contact_list_add, e4]
    rw [e1]
    simp [names, contact_list_add_update_name]

theorem contact_list_remove_names_sublist (l : List contact_t) (name : String)
    (hu : (names l).Nodup) :
    (names (contact_list_remove name l).2).Sublist (names l) := by
  cases l with
  | nil => simp [contact_list_remove]
  | cons c t =>
    by_cases h : name ∈ names (c :: t)
    · have := contact_list_remove_loop_present name (c :: t) [] hu h
      simp only [contact_list_remove, this, List.nil_append]
      exact List.Sublist.map _ (List.filter_sublist _)
    · have := contact_list_remove_loop_absent name (c :: t) [] h
      simp only [contact_list_remove, this, List.nil_append]
      exact List.Sublist.refl _

theorem apply_op_names_nodup (op : dir_op) (l : List contact_t) (hu : (names l).Nodup) :
    (names (apply_op op l)).Nodup := by
  cases op with
  | add name status =>
    by_cases h : name ∈ names l
    · simp only [apply_op, contact_list_add_names_of_mem l name status h]
      exact hu
    · simp only [apply_op, contact_list_add_of_not_mem l name status h]
      simp only [names, List.map_append, List.map_cons, List.map_nil]
      rw [List.nodup_append]
      refine ⟨hu, List.nodup_singleton _, ?_⟩
      intro a ha hb
      simp only [List.mem_singleton] at hb
      exact h (hb ▸ ha)
  | remove name =>
    exact List.Nodup.sublist (contact_list_remove_names_sublist l name hu) hu
  | clear =>
    cases l <;> simp [apply_op, contact_list_clear, names]

theorem run_ops_names_nodup (ops : List dir_op) (l : List contact_t)
    (hu : (names l).Nodup) : (names (run_ops ops l)).Nodup := by
  induction ops generalizing l with
  | nil => exact hu
  | cons op rest ih => exact ih _ (apply_op_names_nodup op l hu)

/-- C12: name uniqueness is an invariant of the directory. The empty directory
has unique names; if a directory has unique names, it still has them after
`contact_list_add`, `contact_list_remove` or `contact_list_clear` with any
arguments; hence every directory reached from the empty one by any sequence
of these calls has at most one contact per name. -/
theorem names_unique_invariant :
    (names []).Nodup ∧
    (∀ (l : List contact_t), (names l).Nodup →
      (∀ name status, (names (contact_list_add name status l).2).Nodup) ∧
      (∀ name, (names (contact_list_remove name l).2).Nodup) ∧
      (names (contact_list_clear l)).Nodup) ∧
    (∀ ops : List dir_op, (names (run_ops ops [])).Nodup) ∧
    (∀ (ops : List dir_op) (name : String),
      ((run_ops ops []).filter (fun c => decide (c.name = name))).length ≤ 1) := by
  have h0 : (names []).Nodup := by simp [names]
  refine ⟨h0, ?_, fun ops => run_ops_names_nodup ops [] h0, ?_⟩
  · intro l hu
    exact ⟨fun name status => apply_op_names_nodup (dir_op.add name status) l hu,
      fun name => apply_op_names_nodup (dir_op.remove name) l hu,
      apply_op_names_nodup dir_op.clear l hu⟩
  · intro ops name
    have hn := run_ops_names_nodup ops [] h0
    generalize run_ops ops [] = l at hn
    induction l with
    | nil => simp
    | cons c t ih =>
      simp only [names, List.map_cons, List.nodup_cons] at hn
      by_cases hc : c.name = name
      · have ht : t.filter (fun c => decide (c.name = name)) = [] := by
          rw [List.filter_eq_nil_iff]
          intro a ha
          have : a.name ≠ name := fun e => hn.1 (by
            rw [hc, ← e]; exact List.mem_map_of_mem _ ha)
          simpa using this
        simp [hc, ht]
      · have := ih hn.2
        simpa [hc] using this

theorem names_unique_invariant_witness :
    (names [{ name := "alice", show_ := some "away" }]).Nodup ∧
    (names (contact_list_add "bob" none [{ name := "alice", show_ := some "away" }]).2).Nodup :=
  ⟨by decide,
   ((names_unique_invariant.2.1 [{ name := "alice", show_ := some "away" }]
      (by decide)).1 "bob" none)⟩

/-! ## Invite prompts over a sequence of events -/

theorem handle_room_invite_eq {σ : Type} (c : Collab σ) (invite_type : jabber_invite_t)
    (invitor room : String) (reason : Option String) (w : World σ) :
    handle_room_invite c invite_type invitor room reason w
      = if c.muc_room_is_active (c.jid_create room) w.ext = false ∧ room ∉ w.invites then
          { ext := w.ext, prefs := w.prefs, invites := w.invites ++ [room],
            trace := w.trace ++ [Call.cons_show_room_invite invitor room reason,
              Call.muc_add_invite room, Call.ui_current_page_off] }
        else w := by
  by_cases ha : c.muc_room_is_active (c.jid_create room) w.ext = true
  · simp [handle_room_invite, ha]
  · by_cases hi : room ∈ w.invites
    · simp [handle_room_invite, ha, hi, muc_invites_include]
    · simp only [Bool.not_eq_true] at ha
      simp [handle_room_invite, ha, hi, muc_invites_include, World.call, invites_after,
        muc_add_invite, Collab.effect]

theorem deliver_invite_trace {σ : Type} (c : Collab σ) (e : invite_event σ) (w : World σ) :
    (deliver_invite c e w).trace
      = w.trace ++
        (if c.muc_room_is_active (c.jid_create e.room) e.ext = false ∧ e.room ∉ w.invites then
          [Call.cons_show_room_invite e.invitor e.room e.reason, Call.muc_add_invite e.room,
           Call.ui_current_page_off]
         else []) := by
  unfold deliver_invite
  rw [handle_room_invite_eq]
  split <;> simp

theorem deliver_invite_invites {σ : Type} (c : Collab σ) (e : invite_event σ) (w : World σ) :
    (deliver_invite c e w).invites
      = if c.muc_room_is_active (c.jid_create e.room) e.ext = false ∧ e.room ∉ w.invites then
          w.invites ++ [e.room]
        else w.invites := by
  unfold deliver_invite
  rw [handle_room_invite_eq]
  split <;> simp

theorem deliver_invite_emitted {σ : Type} (c : Collab σ) (e : invite_event σ) (w : World σ) :
    emitted w (deliver_invite c e w)
      = if c.muc_room_is_active (c.jid_create e.room) e.ext = false ∧ e.room ∉ w.invites then
          [Call.cons_show_room_invite e.invitor e.room e.reason, Call.muc_add_invite e.room,
           Call.ui_current_page_off]
        else [] := by
  simp [emitted, deliver_invite_trace]

theorem deliver_invite_mem {σ : Type} (c : Collab σ) (e : invite_event σ) (w : World σ)
    (r : String) :
    r ∈ (deliver_invite c e w).invites
      ↔ r ∈ w.invites ∨
        (e.room = r ∧ c.muc_room_is_active (c.jid_create e.room) e.ext = false) := by
  rw [deliver_invite_invites]
  split
  · rename_i hc
    simp only [List.mem_append, List.mem_singleton]
    constructor
    · rintro (h | h)
      · exact Or.inl h
      · exact Or.inr ⟨h.symm, hc.1⟩
    · rintro (h | h)
      · exact Or.inl h
      · exact Or.inr h.1.symm
  · rename_i hc
    constructor
    · exact Or.inl
    · rintro (h | h)
      · exact h
      · by_contra hr
        exact hc ⟨h.2, by rw [h.1]; exact hr⟩

theorem deliver_invites_mem {σ : Type} (c : Collab σ) (es : List (invite_event σ))
    (w : World σ) (r : String) :
    r ∈ (deliver_invites c es w).invites
      ↔ r ∈ w.invites ∨
        ∃ e ∈ es, e.room = r ∧ c.muc_room_is_active (c.jid_create e.room) e.ext = false := by
  induction es generalizing w with
  | nil => simp [deliver_invites]
  | cons e rest ih =>
    simp only [deliver_invites, ih, deliver_invite_mem, List.mem_cons, exists_eq_or_imp]
    tauto

theorem deliver_invites_nodup {σ : Type} (c : Collab σ) (es : List (invite_event σ))
    (w : World σ) (h : w.invites.Nodup) : (deliver_invites c es w).invites.Nodup := by
  induction es generalizing w with
  | nil => exact h
  | cons e rest ih =>
    apply ih
    rw [deliver_invite_invites]
    split
    · rename_i hc
      rw [List.nodup_append]
      refine ⟨h, List.nodup_singleton _, ?_⟩
      intro a ha hb
      simp only [List.mem_singleton] at hb
      exact hc.2 (hb ▸ ha)
    · exact h

theorem deliver_invites_trace {σ : Type} (c : Collab σ) (es : List (invite_event σ))
    (w : World σ) :
    ∃ T, (deliver_invites c es w).trace = w.trace ++ T ∧
      ∀ r, (T.filter (is_prompt_for r)).length ≤ 1 ∧
        (r ∈ w.invites → T.filter (is_prompt_for r) = []) := by
  induction es generalizing w with
  | nil => exact ⟨[], by simp [deliver_invites], fun r => by simp⟩
  | cons e rest ih =>
    obtain ⟨T2, hT2, hcount⟩ := ih (deliver_invite c e w)
    by_cases hc : c.muc_room_is_active (c.jid_create e.room) e.ext = false ∧ e.room ∉ w.invites
    · refine ⟨[Call.cons_show_room_invite e.invitor e.room e.reason, Call.muc_add_invite e.room,
          Call.ui_current_page_off] ++ T2, ?_, ?_⟩
      · simp only [deliver_invites, hT2, deliver_invite_trace, if_pos hc, List.append_assoc]
      · intro r
        have hmem := deliver_invite_mem c e w r
        by_cases hr : e.room = r
        · have h2 : T2.filter (is_prompt_for r) = [] :=
            (hcount r).2 (hmem.2 (Or.inr ⟨hr, hc.1⟩))
          refine ⟨?_, ?_⟩
          · simp [List.filter_append, h2, List.filter, is_prompt_for, hr]
          · intro hin
            exact absurd (hr ▸ hin) hc.2
        · refine ⟨?_, ?_⟩
          · have := (hcount r).1
            simpa [List.filter_append, List.filter, is_prompt_for, hr] using this
          · intro hin
            have h2 : T2.filter (is_prompt_for r) = [] := (hcount r).2 (hmem.2 (Or.inl hin))
            simp [List.filter_append, h2, List.filter, is_prompt_for, hr]
    · refine ⟨T2, ?_, ?_⟩
      · simp only [deliver_invites, hT2, deliver_invite_trace, if_neg hc, List.append_nil]
      · intro r
        have hinv : (deliver_invite c e w).invites = w.invites := by
          rw [deliver_invite_invites, if_neg hc]
        refine ⟨(hcount r).1, ?_⟩
        intro hin
        exact (hcount r).2 (by rw [hinv]; exact hin)

/-- C13: start with no pending invite and let any sequence of invites arrive,
each with its own state of the stores. An invite for room `r` is prompted
exactly when `r` is not active at that moment and no earlier invite for `r`
arrived while `r` was not active: the first such invite prompts, no later one
does. Over the whole sequence `r` is prompted at most once and is recorded at
most once. While `r` is recorded, an invite for `r` makes no call and changes
nothing in the invite set; `handle_lost_connection` empties the invite set,
and after it an invite for a room that is not active prompts again. -/
theorem invite_prompt_at_most_once {σ : Type} (c : Collab σ) (w0 : World σ)
    (h0 : w0.invites = []) :
    (∀ (pre : List (invite_event σ)) (e : invite_event σ),
      (∃ i x, Call.cons_show_room_invite i e.room x ∈
          emitted (deliver_invites c pre w0) (deliver_invite c e (deliver_invites c pre w0)))
        ↔ (c.muc_room_is_active (c.jid_create e.room) e.ext = false ∧
           ∀ e2 ∈ pre, e2.room = e.room →
             c.muc_room_is_active (c.jid_create e2.room) e2.ext = true)) ∧
    (∀ (es : List (invite_event σ)) (r : String),
      ((emitted w0 (deliver_invites c es w0)).filter (is_prompt_for r)).length ≤ 1 ∧
      (deliver_invites c es w0).invites.count r ≤ 1) ∧
    (∀ (w : World σ) (e : invite_event σ), e.room ∈ w.invites →
      emitted w (deliver_invite c e w) = [] ∧ (deliver_invite c e w).invites = w.invites) ∧
    (∀ (w : World σ) (e : invite_event σ),
      (handle_lost_connection c w).invites = [] ∧
      (c.muc_room_is_active (c.jid_create e.room) e.ext = false →
        emitted (handle_lost_connection c w)
            (deliver_invite c e (handle_lost_connection c w))
          = [Call.cons_show_room_invite e.invitor e.room e.reason,
             Call.muc_add_invite e.room, Call.ui_current_page_off])) := by
  refine ⟨?_, ?_, ?_, ?_⟩
  · intro pre e
    rw [deliver_invite_emitted]
    have hmem := deliver_invites_mem c pre w0 e.room
    rw [h0] at hmem
    simp only [List.not_mem_nil, false_or] at hmem
    constructor
    · rintro ⟨i, x, hin⟩
      split at hin
      · rename_i hc
        refine ⟨hc.1, ?_⟩
        intro e2 he2 hroom
        by_contra hact
        simp only [Bool.not_eq_true] at hact
        exact hc.2 (hmem.2 ⟨e2, he2, hroom, hact⟩)
      · simp at hin
    · rintro ⟨hact, hall⟩
      have hnot : e.room ∉ (deliver_invites c pre w0).invites := by
        intro hin
        obtain ⟨e2, he2, hroom, hfalse⟩ := hmem.1 hin
        have := hall e2 he2 hroom
        rw [hfalse] at this
        cases this
      rw [if_pos ⟨hact, hnot⟩]
      exact ⟨e.invitor, e.reason, by simp⟩
  · intro es r
    obtain ⟨T, hT, hcount⟩ := deliver_invites_trace c es w0
    have he : emitted w0 (deliver_invites c es w0) = T := by simp [emitted, hT]
    rw [he]
    refine ⟨(hcount r).1, ?_⟩
    exact List.nodup_iff_count_le_one.1
      (deliver_invites_nodup c es w0 (by rw [h0]; exact List.nodup_nil)) r
  · intro w e hin
    rw [deliver_invite_emitted, deliver_invite_invites]
    have hc : ¬ (c.muc_room_is_active (c.jid_create e.room) e.ext = false ∧ e.room ∉ w.invites) :=
      fun h => h.2 hin
    rw [if_neg hc, if_neg hc]
    exact ⟨rfl, rfl⟩
  · intro w e
    have hl : (handle_lost_connection c w).invites = [] := by
      simp [handle_lost_connection, World.call, invites_after]
    refine ⟨hl, ?_⟩
    intro hact
    rw [deliver_invite_emitted, if_pos ⟨hact, by rw [hl]; simp⟩]

theorem invite_prompt_at_most_once_witness :
    (sample_world "on").invites = [] ∧
    ((emitted (sample_world "on")
        (deliver_invites sample_collab
          [{ ext := (), invite_type := 0, invitor := "bob", room := "r1", reason := none },
           { ext := (), invite_type := 0, invitor := "carol", room := "r1", reason := none }]
          (sample_world "on"))).filter (is_prompt_for "r1")).length ≤ 1 :=
  ⟨rfl,
   ((invite_prompt_at_most_once sample_collab (sample_world "on") rfl).2.1
      [{ ext := (), invite_type := 0, invitor := "bob", room := "r1", reason := none },
       { ext := (), invite_type := 0, invitor := "carol", room := "r1", reason := none }]
      "r1").1⟩

/-- The end-to-end sequence of the specification for room "r1": the first
invite prompts, the repeated invite makes no call. -/
theorem invite_r1_prompts_once :
    emitted (sample_world "on")
        (deliver_invites sample_collab
          [{ ext := (), invite_type := 0, invitor := "bob", room := "r1", reason := none },
           { ext := (), invite_type := 0, invitor := "bob", room := "r1", reason := none }]
          (sample_world "on"))
      = [Call.cons_show_room_invite "bob" "r1" none, Call.muc_add_invite "r1",
         Call.ui_current_page_off] := by
  decide

end Profanity
